import Mathlib

/-!
Shallow embedding of the countdown-timer detection core of the repository
(file src/analysis/timer-analysis/CountdownTimerAnalysis.ipynb):
preprocessing of segment observations, the grouping step, the two
decreasing-sequence heuristics and the timestamp gate, together with
theorems settling the frozen claims about them.

Conventions of the embedding:
- Python lists become Lean lists; a Python function that can raise an
  exception is embedded as an Option-valued function, none standing for a
  raised exception.
- The digit strings handled by the pipeline consist of decimal digit
  characters only (they are produced by stripping non-digits), so the
  embedding of the Python int() conversion parses exactly the non-empty
  all-digit strings and is none (raises) on the empty string.
- Python float division in the ratio test is embedded as exact division
  in the rationals.
- pandas timestamps are embedded by their underlying integer value in
  nanoseconds since the epoch; applying int() to a pandas Timestamp of the
  era the notebook was written in yields exactly that nanosecond value.
- Counter.most_common(1) of Python 2 breaks ties between equally frequent
  values arbitrarily; the embedding fixes the deterministic first
  encountered maximum, which the claims are insensitive to.
-/

/-- Global threshold from the notebook: there should be 5X more negative
updates than positive ones. -/
def TIMER_MIN_NEG_POS_UPDATE_RATIO : ℚ := 5

/-- Global threshold from the notebook: there should be 5 or more decreases. -/
def TIMER_MIN_NO_OF_NEG_UPDATES : ℕ := 5

/-- Embedding of Python int() restricted to the digit strings the pipeline
produces: a non-empty string of decimal digits parses to its value, the
empty string raises (none). -/
def pyInt (s : String) : Option ℤ :=
  if s.data ≠ [] ∧ s.data.all Char.isDigit then
    some (s.data.foldl (fun acc c => 10 * acc + ((c.toNat : ℤ) - 48)) 0)
  else none

/-- Parse every element of the list, propagating a parse failure as none,
as the Python list comprehension over int() does. -/
def parseAll : List String → Option (List ℤ)
  | [] => some []
  | s :: rest =>
    match pyInt s, parseAll rest with
    | some v, some vs => some (v :: vs)
    | _, _ => none

/-- differences(series): consecutive differences int(series[i+1]) - int(series[i]).
With fewer than 2 elements the Python zip is empty and no element is ever
parsed, so the result is the empty list; otherwise every element is parsed
and a parse failure propagates as an exception (none). -/
def differences (series : List String) : Option (List ℤ) :=
  if series.length < 2 then some []
  else
    match parseAll series with
    | none => none
    | some vals => some ((vals.zip vals.tail).map fun p => p.2 - p.1)

/-- Count of diffs that are strictly negative and not in the exclusion
list [59, 5, 9], exactly as both heuristics compute n_negs. -/
def n_negs (diffs : List ℤ) : ℕ :=
  (diffs.filter fun d => decide (d < 0) && !(d == 59 || d == 5 || d == 9)).length

/-- Count of strictly positive diffs, as both heuristics compute n_pos. -/
def n_pos (diffs : List ℤ) : ℕ :=
  (diffs.filter fun d => decide (0 < d)).length

/-- most_common(diffs): the most frequent value, none on the empty list.
Ties are broken deterministically by the first position reaching the
maximal count. -/
def most_common (diffs : List ℤ) : Option ℤ :=
  diffs.foldl
    (fun best x =>
      match best with
      | none => some x
      | some b => if diffs.count b < diffs.count x then some x else some b)
    none

/-- most_common_neg(diffs): the most frequent strictly negative value,
none when there is none. -/
def most_common_neg (diffs : List ℤ) : Option ℤ :=
  most_common (diffs.filter fun d => decide (d < 0))

/-- num_most_common_neg(diffs): how often the most common negative value
occurs in diffs. The Python code tests the mode for falsity, so a mode of
0 (impossible for a negative mode, but kept for fidelity) also yields 0. -/
def num_most_common_neg (diffs : List ℤ) : ℕ :=
  match most_common_neg diffs with
  | none => 0
  | some m => if m = 0 then 0 else diffs.count m

/-- is_decreasing(series), the ratio heuristic. The result is none when
the difference computation raises. -/
def is_decreasing (series : List String) : Option Bool :=
  (differences series).map fun diffs =>
    if diffs = [] then false
    else if n_negs diffs < TIMER_MIN_NO_OF_NEG_UPDATES then false
    else if n_pos diffs = 0 then true
    else decide ((n_negs diffs : ℚ) / (n_pos diffs : ℚ) > TIMER_MIN_NEG_POS_UPDATE_RATIO )

/-- is_decreasing_mode(series), the mode heuristic. In the Python 2 source
the unrestricted mode cannot be None at the point it is compared with 0
(diffs is non-empty there); the embedding keeps the comparison faithful to
Python 2, where None > 0 is false, by letting a missing mode pass that test. -/
def is_decreasing_mode (series : List String) : Option Bool :=
  (differences series).map fun diffs =>
    if diffs = [] then false
    else if series.dedup.length < 5 then false
    else if n_negs diffs < TIMER_MIN_NO_OF_NEG_UPDATES then false
    else if n_pos diffs = 0 then true
    else if (match most_common diffs with
             | none => false
             | some mode => decide (mode > 0)) then false
    else if num_most_common_neg diffs < 5 then false
    else decide (n_negs diffs > n_pos diffs)

/-- num_unique(series): number of distinct values. -/
def num_unique (series : List ℤ) : ℕ := series.dedup.length

/-- ts_check(series): the timestamp gate. The series holds pandas
timestamps, embedded by their nanosecond value; int() of such a timestamp
yields that nanosecond value unchanged, so the gate counts distinct raw
timestamps, with no truncation to seconds. -/
def ts_check (series : List ℤ) : Bool :=
  decide (5 ≤ series.dedup.length)

/-- Modelled from the spec: the timestamp gate as the spec describes it,
counting distinct truncated-to-second timestamps (the nanosecond value
divided by 10^9). This definition follows the spec words; the code
authority is ts_check above. -/
def ts_check_spec_seconds (series : List ℤ) : Bool :=
  decide (5 ≤ (series.map fun ts => ts / 1000000000).dedup.length)

/-- Replace every maximal run of decimal digits in a character list with
the placeholder DPNUM, embedding re.sub of one or more digits by DPNUM. -/
def collapseDigits (l : List Char) : List Char :=
  match l with
  | [] => []
  | c :: rest =>
    if c.isDigit then "DPNUM".data ++ collapseDigits (rest.dropWhile Char.isDigit)
    else c :: collapseDigits rest
termination_by l.length
decreasing_by
  · simpa using Nat.lt_succ_of_le (List.dropWhile_sublist _).length_le
  · simp

/-- inner_processed: inner_text with digit runs collapsed to DPNUM. -/
def innerProcessedOf (s : String) : String := ⟨collapseDigits s.data⟩

/-- inner_digits: inner_text with all non-digit characters removed. -/
def innerDigitsOf (s : String) : String := ⟨s.data.filter Char.isDigit⟩

/-- One preprocessed segment observation: the raw row fields together with
the two derived text fields. Positions are embedded as rationals and the
pandas timestamp by its nanosecond value. -/
structure PreprocessedObservation where
  siteUrl : String
  visitId : ℤ
  nodeId : ℤ
  top : ℚ
  left : ℚ
  width : ℚ
  height : ℚ
  innerText : String
  timeStamp : ℤ
  innerProcessed : String
  innerDigits : String
deriving DecidableEq, Repr

/-- The grouping key of detect_timers: visit_id, top, left, inner_processed. -/
structure GroupKey where
  visitId : ℤ
  top : ℚ
  left : ℚ
  innerProcessed : String
deriving DecidableEq, Repr

/-- The grouping key of an observation. -/
def groupKey (o : PreprocessedObservation) : GroupKey :=
  ⟨o.visitId, o.top, o.left, o.innerProcessed⟩

/-- The rows of one group, in original input order, as the pandas groupby
presents them to the aggregation functions. -/
def groupRows (segments : List PreprocessedObservation) (k : GroupKey) :
    List PreprocessedObservation :=
  segments.filter fun o => decide (groupKey o = k)

/-- The distinct group keys of the input, in order of first occurrence. -/
def groupKeys (segments : List PreprocessedObservation) : List GroupKey :=
  (segments.map groupKey).dedup

/-- One row of the grouped-and-classified table: the grouping key plus
every aggregated column of detect_timers. -/
structure SegmentGroupRow where
  visitId : ℤ
  top : ℚ
  left : ℚ
  innerProcessed : String
  nodeIdCount : ℕ
  tsCheckResult : Bool
  isDecreasingResult : Bool
  isDecreasingModeResult : Bool
  siteUrlFirst : String
deriving DecidableEq, Repr

/-- Aggregate one group: num_unique over node_id, ts_check over time_stamp,
the two heuristics over inner_digits, first over site_url. none when a
classification raises (or the group is empty, which never arises for the
keys detect_timers enumerates). -/
def aggregateGroup (k : GroupKey) (rows : List PreprocessedObservation) :
    Option SegmentGroupRow :=
  match is_decreasing (rows.map (·.innerDigits)),
        is_decreasing_mode (rows.map (·.innerDigits)), rows.head? with
  | some dec, some decMode, some r0 =>
    some
      { visitId := k.visitId
        top := k.top
        left := k.left
        innerProcessed := k.innerProcessed
        nodeIdCount := num_unique (rows.map (·.nodeId))
        tsCheckResult := ts_check (rows.map (·.timeStamp))
        isDecreasingResult := dec
        isDecreasingModeResult := decMode
        siteUrlFirst := r0.siteUrl }
  | _, _, _ => none

/-- detect_timers: group by (visit_id, top, left, inner_processed),
aggregate each group, and filter the grouped table by the conjunction of
the two heuristics and the timestamp gate. Returns (timers, grouped);
none when any group raises. -/
def detect_timers (segments : List PreprocessedObservation) :
    Option (List SegmentGroupRow × List SegmentGroupRow) :=
  ((groupKeys segments).mapM fun k => aggregateGroup k (groupRows segments k)).map
    fun grouped =>
      (grouped.filter fun g =>
        g.isDecreasingResult && g.isDecreasingModeResult && g.tsCheckResult,
       grouped)

/-- A sample observation of the running examples: one row of the group at
position (0, 0) of visit 1, with the given digit string, node identity and
timestamp (in nanoseconds). -/
def mkObs (digits : String) (node : ℤ) (ts : ℤ) : PreprocessedObservation :=
  { siteUrl := "https://example.test/page"
    visitId := 1
    nodeId := node
    top := 0
    left := 0
    width := 100
    height := 20
    innerText := digits
    timeStamp := ts
    innerProcessed := "DPNUM"
    innerDigits := digits }

/-- Six snapshots of one element counting down from 10 to 5, one second
apart, arriving in timestamp order. -/
def exTimerRows : List PreprocessedObservation :=
  [mkObs "10" 7 0, mkObs "9" 7 1000000000, mkObs "8" 7 2000000000,
   mkObs "7" 7 3000000000, mkObs "6" 7 4000000000, mkObs "5" 7 5000000000]

/-- Count of strictly negative diffs with the exclusion clause removed,
following the claim words for the simplified variant. -/
def n_negs_simple (diffs : List ℤ) : ℕ :=
  (diffs.filter fun d => decide (d < 0)).length

/-- The ratio heuristic with the exclusion clause removed, following the
claim words for the simplified variant; otherwise identical to
is_decreasing. -/
def is_decreasing_simple (series : List String) : Option Bool :=
  (differences series).map fun diffs =>
    if diffs = [] then false
    else if n_negs_simple diffs < TIMER_MIN_NO_OF_NEG_UPDATES then false
    else if n_pos diffs = 0 then true
    else decide ((n_negs_simple diffs : ℚ) / (n_pos diffs : ℚ) > TIMER_MIN_NEG_POS_UPDATE_RATIO )

/-- The mode heuristic with the exclusion clause removed, following the
claim words for the simplified variant; otherwise identical to
is_decreasing_mode. -/
def is_decreasing_mode_simple (series : List String) : Option Bool :=
  (differences series).map fun diffs =>
    if diffs = [] then false
    else if series.dedup.length < 5 then false
    else if n_negs_simple diffs < TIMER_MIN_NO_OF_NEG_UPDATES then false
    else if n_pos diffs = 0 then true
    else if (match most_common diffs with
             | none => false
             | some mode => decide (mode > 0)) then false
    else if num_most_common_neg diffs < 5 then false
    else decide (n_negs_simple diffs > n_pos diffs)

/-- A digit sequence whose diffs are six decreases of 1 followed by five
increases of 1: the mode heuristic passes on it, the ratio heuristic does
not (6 negative against 5 positive updates is a ratio of 6/5). -/
def exModeNotRatio : List String :=
  ["10", "9", "8", "7", "6", "5", "4", "5", "6", "7", "8", "9"]

/-- A digit sequence with exactly 25 negative and 5 positive unit diffs,
so the ratio of negative to positive updates is exactly 5. -/
def exRatioExactlyFive : List String :=
  ["31", "30", "29", "28", "27", "26", "25", "24", "23", "22", "21",
   "20", "19", "18", "17", "16", "15", "14", "13", "12", "11",
   "10", "9", "8", "7", "6", "7", "8", "9", "10", "11"]

/-- The grouped row detect_timers produces for exTimerRows. -/
def exTimerRow : SegmentGroupRow :=
  { visitId := 1
    top := 0
    left := 0
    innerProcessed := "DPNUM"
    nodeIdCount := 1
    tsCheckResult := true
    isDecreasingResult := true
    isDecreasingModeResult := true
    siteUrlFirst := "https://example.test/page" }

/-- Two observations with identical grouping key fields but distinct
node identities. -/
def exTwoNodes : List PreprocessedObservation :=
  [mkObs "1" 7 0, mkObs "2" 8 1000000000]

/-- Five timestamps inside the same wall-clock second, 200 milliseconds
apart (nanosecond values below one billion). -/
def exSameSecondTs : List ℤ :=
  [0, 200000000, 400000000, 600000000, 800000000]

/-- A successful parse of every element preserves the length. -/
theorem parseAll_length (l : List String) (vals : List ℤ)
    (h : parseAll l = some vals) : vals.length = l.length := by
  induction l generalizing vals with
  | nil =>
    simp only [parseAll, Option.some.injEq] at h
    simp [← h]
  | cons s rest ih =>
    simp only [parseAll] at h
    cases hp : pyInt s with
    | none => rw [hp] at h; exact absurd h (by simp)
    | some v =>
      rw [hp] at h
      cases hr : parseAll rest with
      | none => rw [hr] at h; exact absurd h (by simp)
      | some vs =>
        rw [hr] at h
        simp only [Option.some.injEq] at h
        subst h
        simp [ih vs hr]

/-- On a series of at least two elements a successful difference
computation yields a non-empty diff list. -/
theorem differences_ne_nil (s : List String) (d : List ℤ) (h2 : 2 ≤ s.length)
    (hd : differences s = some d) : d ≠ [] := by
  unfold differences at hd
  rw [if_neg (by omega)] at hd
  cases hp : parseAll s with
  | none => rw [hp] at hd; exact absurd hd (by simp)
  | some vals =>
    rw [hp] at hd
    simp only [Option.some.injEq] at hd
    have hlen := parseAll_length s vals hp
    intro hnil
    rw [hnil] at hd
    have hz := congrArg List.length (List.map_eq_nil_iff.mp hd)
    rw [List.length_zip, List.length_tail] at hz
    simp at hz
    omega

/-- The exclusion test agrees with plain negativity on every integer. -/
theorem filter_exclusion_eq (d : ℤ) :
    (decide (d < 0) && !(d == 59 || d == 5 || d == 9)) = decide (d < 0) := by
  by_cases h : d < 0
  · have h59 : (d == (59 : ℤ)) = false := by simp; omega
    have h5 : (d == (5 : ℤ)) = false := by simp; omega
    have h9 : (d == (9 : ℤ)) = false := by simp; omega
    simp [h, h59, h5, h9]
  · simp [h]

/-- The two negative-update counts agree on every diff list. -/
theorem n_negs_eq_simple (l : List ℤ) : n_negs l = n_negs_simple l := by
  unfold n_negs n_negs_simple
  congr 1
  apply List.filter_congr
  intro d _
  exact filter_exclusion_eq d

/-- C8: in both heuristics the exclusion set {59, 5, 9} is vacuous: a diff
tested for exclusion is already strictly negative and never equals 59, 5
or 9, so the negative-update count equals the count of all strictly
negative diffs and each heuristic is extensionally equal to the simplified
variant with the exclusion clause removed. -/
theorem exclusion_set_vacuous :
    (∀ d : ℤ, d < 0 → d ≠ 59 ∧ d ≠ 5 ∧ d ≠ 9) ∧
    (∀ diffs : List ℤ, n_negs diffs = n_negs_simple diffs) ∧
    (∀ series : List String, is_decreasing series = is_decreasing_simple series) ∧
    (∀ series : List String, is_decreasing_mode series = is_decreasing_mode_simple series) := by
  refine ⟨fun d h => by omega, n_negs_eq_simple, fun s => ?_, fun s => ?_⟩
  · unfold is_decreasing is_decreasing_simple
    cases differences s with
    | none => rfl
    | some diffs => simp [n_negs_eq_simple]
  · unfold is_decreasing_mode is_decreasing_mode_simple
    cases differences s with
    | none => rfl
    | some diffs => simp [n_negs_eq_simple]

/-- C8 witness: the exclusion-vacuity theorem applied at a concrete
negative diff and at the concrete running sequences. -/
theorem exclusion_set_vacuous_witness :
    ((-1 : ℤ) < 0 ∧ ((-1 : ℤ) ≠ 59 ∧ (-1 : ℤ) ≠ 5 ∧ (-1 : ℤ) ≠ 9)) ∧
    n_negs [-1, -1, -1, -1, -1, 50] = n_negs_simple [-1, -1, -1, -1, -1, 50] ∧
    is_decreasing ["10", "9", "8", "7", "6", "5"]
      = is_decreasing_simple ["10", "9", "8", "7", "6", "5"] :=
  ⟨⟨by decide, exclusion_set_vacuous.1 (-1) (by decide)⟩,
   exclusion_set_vacuous.2.1 [-1, -1, -1, -1, -1, 50],
   exclusion_set_vacuous.2.2.1 ["10", "9", "8", "7", "6", "5"]⟩

/-- No character of the collapsed output is a digit. -/
theorem collapseDigits_no_digit (l : List Char) :
    ∀ c ∈ collapseDigits l, c.isDigit = false := by
  induction l using collapseDigits.induct with
  | case1 => simp [collapseDigits]
  | case2 c rest hc ih =>
    intro x hx
    rw [collapseDigits, if_pos hc] at hx
    rcases List.mem_append.mp hx with h | h
    · fin_cases h <;> decide
    · exact ih x h
  | case3 c rest hc ih =>
    intro x hx
    rw [collapseDigits, if_neg hc] at hx
    rcases List.mem_cons.mp hx with h | h
    · rw [h]; simpa using hc
    · exact ih x h

/-- Collapsing is the identity on digit-free character lists. -/
theorem collapseDigits_of_no_digit (l : List Char)
    (h : ∀ c ∈ l, c.isDigit = false) : collapseDigits l = l := by
  induction l with
  | nil => simp [collapseDigits]
  | cons c rest ih =>
    rw [collapseDigits, if_neg (by simp [h c (by simp)])]
    rw [ih fun x hx => h x (List.mem_cons_of_mem c hx)]

/-- C10: the digit-run collapsing is idempotent: collapsing the collapsed
template again yields the same string. -/
theorem collapse_idempotent (x : String) :
    innerProcessedOf (innerProcessedOf x) = innerProcessedOf x := by
  unfold innerProcessedOf
  exact congrArg String.mk (collapseDigits_of_no_digit _ (collapseDigits_no_digit x.data))

/-- C2: the ratio heuristic accepts exactly when the filtered negative
count is at least 5 and either there is no positive diff or the ratio of
negative to positive updates strictly exceeds 5 under exact division;
additionally, on the concrete sequence with 25 negative and 5 positive
updates, whose ratio is exactly 5, it fails. -/
theorem is_decreasing_iff_ratio (s : List String) (d : List ℤ)
    (h2 : 2 ≤ s.length) (hd : differences s = some d) :
    (is_decreasing s = some true ↔
      5 ≤ n_negs d ∧
        (n_pos d = 0 ∨ (5 : ℚ) < (n_negs d : ℚ) / (n_pos d : ℚ))) ∧
    is_decreasing exRatioExactlyFive = some false := by
  constructor
  · have h0 : d ≠ [] := differences_ne_nil s d h2 hd
    rw [is_decreasing, hd]
    simp only [Option.map_some', Option.some.injEq]
    rw [if_neg h0]
    unfold TIMER_MIN_NO_OF_NEG_UPDATES TIMER_MIN_NEG_POS_UPDATE_RATIO
    by_cases hneg : n_negs d < 5
    · rw [if_pos hneg]
      simp
      omega
    · rw [if_neg hneg]
      by_cases hp : n_pos d = 0
      · rw [if_pos hp]
        simp
        exact ⟨by omega, Or.inl hp⟩
      · rw [if_neg hp]
        rw [decide_eq_true_iff]
        constructor
        · intro h
          exact ⟨by omega, Or.inr h⟩
        · intro h
          rcases h.2 with h | h
          · exact absurd h hp
          · exact h
  · have hd5 : differences exRatioExactlyFive =
        some [-1, -1, -1, -1, -1, -1, -1, -1, -1, -1, -1, -1, -1, -1, -1,
              -1, -1, -1, -1, -1, -1, -1, -1, -1, -1, 1, 1, 1, 1, 1] := by
      decide
    rw [is_decreasing, hd5]
    have h1 : n_negs [-1, -1, -1, -1, -1, -1, -1, -1, -1, -1, -1, -1, -1, -1, -1,
        -1, -1, -1, -1, -1, -1, -1, -1, -1, -1, 1, 1, 1, 1, 1] = 25 := by decide
    have h2 : n_pos [-1, -1, -1, -1, -1, -1, -1, -1, -1, -1, -1, -1, -1, -1, -1,
        -1, -1, -1, -1, -1, -1, -1, -1, -1, -1, 1, 1, 1, 1, 1] = 5 := by decide
    simp only [Option.map_some', Option.some.injEq, h1, h2,
      TIMER_MIN_NO_OF_NEG_UPDATES, TIMER_MIN_NEG_POS_UPDATE_RATIO ]
    norm_num

/-- C2 witness: the ratio-heuristic characterisation applied to the
strictly decreasing concrete sequence from 10 to 5. -/
theorem is_decreasing_iff_ratio_witness :
    is_decreasing ["10", "9", "8", "7", "6", "5"] = some true :=
  ((is_decreasing_iff_ratio ["10", "9", "8", "7", "6", "5"] [-1, -1, -1, -1, -1]
    (by decide) (by decide)).1).mpr (by decide)

/-- C3: the mode heuristic accepts exactly when the series has at least 5
distinct values, the filtered negative count is at least 5, and either
there is no positive diff, or the unrestricted mode of the diffs is at
most 0, the most frequent negative diff occurs at least 5 times, and the
negative count strictly exceeds the positive count. -/
theorem is_decreasing_mode_iff (s : List String) (d : List ℤ) (m : ℤ)
    (h2 : 2 ≤ s.length) (hd : differences s = some d)
    (hm : most_common d = some m) :
    is_decreasing_mode s = some true ↔
      5 ≤ s.dedup.length ∧ 5 ≤ n_negs d ∧
        (n_pos d = 0 ∨
          (m ≤ 0 ∧ 5 ≤ num_most_common_neg d ∧ n_pos d < n_negs d)) := by
  have h0 : d ≠ [] := differences_ne_nil s d h2 hd
  rw [is_decreasing_mode, hd]
  simp only [Option.map_some', Option.some.injEq]
  rw [if_neg h0, hm]
  unfold TIMER_MIN_NO_OF_NEG_UPDATES
  by_cases hdist : s.dedup.length < 5
  · rw [if_pos hdist]
    simp
    omega
  · rw [if_neg hdist]
    by_cases hneg : n_negs d < 5
    · rw [if_pos hneg]
      simp
      omega
    · rw [if_neg hneg]
      by_cases hp : n_pos d = 0
      · rw [if_pos hp]
        simp
        exact ⟨by omega, by omega, Or.inl hp⟩
      · rw [if_neg hp]
        by_cases hmode : m > 0
        · rw [if_pos (by simpa using hmode)]
          simp only [Bool.false_eq_true, false_iff]
          rintro ⟨-, -, h | ⟨h1, -, -⟩⟩
          · exact hp h
          · omega
        · rw [if_neg (by simpa using hmode)]
          by_cases hcnt : num_most_common_neg d < 5
          · rw [if_pos hcnt]
            simp only [Bool.false_eq_true, false_iff]
            rintro ⟨-, -, h | ⟨-, h2, -⟩⟩
            · exact hp h
            · omega
          · rw [if_neg hcnt]
            rw [decide_eq_true_iff]
            constructor
            · intro h
              exact ⟨by omega, by omega, Or.inr ⟨by omega, by omega, h⟩⟩
            · intro h
              rcases h.2.2 with h | h
              · exact absurd h hp
              · exact h.2.2

/-- C3 witness: the mode-heuristic characterisation applied to the
strictly decreasing concrete sequence from 10 to 5, whose diff mode
is minus 1. -/
theorem is_decreasing_mode_iff_witness :
    is_decreasing_mode ["10", "9", "8", "7", "6", "5"] = some true :=
  (is_decreasing_mode_iff ["10", "9", "8", "7", "6", "5"] [-1, -1, -1, -1, -1]
    (-1) (by decide) (by decide) (by decide)).mpr (by decide)

/-- C4 counterexample: on the concrete sequence with six unit decreases
followed by five unit increases the mode heuristic accepts while the
ratio heuristic rejects, so the implication of the claim fails. -/
theorem mode_accepts_ratio_rejects :
    is_decreasing_mode exModeNotRatio = some true ∧
    is_decreasing exModeNotRatio = some false := by
  constructor
  · decide
  · have hd : differences exModeNotRatio =
        some [-1, -1, -1, -1, -1, -1, 1, 1, 1, 1, 1] := by decide
    rw [is_decreasing, hd]
    have h1 : n_negs [-1, -1, -1, -1, -1, -1, 1, 1, 1, 1, 1] = 6 := by decide
    have h2 : n_pos [-1, -1, -1, -1, -1, -1, 1, 1, 1, 1, 1] = 5 := by decide
    simp only [Option.map_some', Option.some.injEq, h1, h2,
      TIMER_MIN_NO_OF_NEG_UPDATES, TIMER_MIN_NEG_POS_UPDATE_RATIO ]
    norm_num

/-- C4 amended: acceptance by the mode heuristic implies acceptance by the
ratio heuristic whenever the diff sequence has no strictly positive entry;
in general the implication does not hold. -/
theorem mode_implies_ratio_when_no_pos (s : List String) (d : List ℤ)
    (hd : differences s = some d) (hp : n_pos d = 0)
    (hm : is_decreasing_mode s = some true) :
    is_decreasing s = some true := by
  rw [is_decreasing_mode, hd] at hm
  rw [is_decreasing, hd]
  simp only [Option.map_some', Option.some.injEq] at hm ⊢
  by_cases h0 : d = []
  · rw [if_pos h0] at hm
    exact absurd hm (by simp)
  rw [if_neg h0] at hm ⊢
  by_cases hdist : s.dedup.length < 5
  · rw [if_pos hdist] at hm
    exact absurd hm (by simp)
  rw [if_neg hdist] at hm
  by_cases hneg : n_negs d < TIMER_MIN_NO_OF_NEG_UPDATES
  · rw [if_pos hneg] at hm
    exact absurd hm (by simp)
  rw [if_neg hneg, if_pos hp]

/-- C4 witness: the amended implication applied to the strictly
decreasing concrete sequence from 10 to 5. -/
theorem mode_implies_ratio_when_no_pos_witness :
    is_decreasing ["10", "9", "8", "7", "6", "5"] = some true :=
  mode_implies_ratio_when_no_pos ["10", "9", "8", "7", "6", "5"]
    [-1, -1, -1, -1, -1] (by decide) (by decide) (by decide)

/-- C5 counterexample: on a group of two observations whose digit strings
are both empty, both classifications raise (none in the embedding) instead
of returning false. -/
theorem empty_digit_pair_raises :
    is_decreasing ["", ""] = none ∧ is_decreasing ["", ""] ≠ some false ∧
    is_decreasing_mode ["", ""] = none := by
  refine ⟨by decide, ?_, by decide⟩
  decide

/-- C5 amended: an empty digit string is not treated as an absent value:
on an all-empty-digit group the classifications return false only when the
group has fewer than 2 observations, where no digit string is ever parsed;
with 2 or more observations the integer parse of the empty string fails
and the exception propagates (none in the embedding). -/
theorem empty_digit_group_behavior (s : List String) (h : ∀ x ∈ s, x = "") :
    (s.length < 2 → is_decreasing s = some false ∧ is_decreasing_mode s = some false) ∧
    (2 ≤ s.length → is_decreasing s = none ∧ is_decreasing_mode s = none) := by
  constructor
  · intro hlen
    have hd : differences s = some [] := by
      unfold differences
      rw [if_pos hlen]
    rw [is_decreasing, is_decreasing_mode, hd]
    simp
  · intro hlen
    have hd : differences s = none := by
      unfold differences
      rw [if_neg (by omega)]
      cases s with
      | nil => simp at hlen
      | cons x rest =>
        have hx : x = "" := h x (by simp)
        have hpx : pyInt x = none := by rw [hx]; decide
        simp only [parseAll, hpx]
    rw [is_decreasing, is_decreasing_mode, hd]
    simp

/-- C5 witness: the amended behaviour applied to the concrete group of two
empty digit strings. -/
theorem empty_digit_group_behavior_witness :
    is_decreasing ["", ""] = none ∧ is_decreasing_mode ["", ""] = none :=
  (empty_digit_group_behavior ["", ""] (by decide)).2 (by decide)

/-- C7: evaluation at the failing input. Five updates 200 milliseconds
apart inside one wall-clock second pass the gate of the code, because
applying int() to a pandas timestamp yields its full nanosecond value, so
ts_check counts distinct raw timestamps; the spec-modelled whole-second
gate rejects the same group, whose updates span a single distinct second. -/
theorem ts_check_not_truncated_to_seconds :
    ts_check exSameSecondTs = true ∧
    (exSameSecondTs.map fun ts => ts / 1000000000).dedup.length = 1 ∧
    ts_check_spec_seconds exSameSecondTs = false := by
  decide

/-- C1: a group row is in the confirmed-timers output of detect_timers
exactly when it is in the grouped table and all three classification
results hold: the ratio heuristic, the mode heuristic and the timestamp
gate; failing any one excludes it. -/
theorem timers_iff_all_three (segments : List PreprocessedObservation)
    (timers grouped : List SegmentGroupRow)
    (h : detect_timers segments = some (timers, grouped)) (g : SegmentGroupRow) :
    g ∈ timers ↔
      g ∈ grouped ∧ g.isDecreasingResult = true ∧
        g.isDecreasingModeResult = true ∧ g.tsCheckResult = true := by
  unfold detect_timers at h
  rw [Option.map_eq_some'] at h
  obtain ⟨gr, -, heq⟩ := h
  have ht : timers = gr.filter fun g =>
      g.isDecreasingResult && g.isDecreasingModeResult && g.tsCheckResult :=
    (congrArg Prod.fst heq).symm
  have hg : grouped = gr := (congrArg Prod.snd heq).symm
  subst ht hg
  rw [List.mem_filter]
  simp [Bool.and_eq_true, and_assoc]

/-- C1 witness: the filter characterisation applied to the concrete
six-snapshot countdown group, which detect_timers reports as a timer. -/
theorem timers_iff_all_three_witness :
    detect_timers exTimerRows = some ([exTimerRow], [exTimerRow]) ∧
      (exTimerRow ∈ [exTimerRow] ↔
        exTimerRow ∈ [exTimerRow] ∧ exTimerRow.isDecreasingResult = true ∧
          exTimerRow.isDecreasingModeResult = true ∧ exTimerRow.tsCheckResult = true) :=
  ⟨by decide,
   timers_iff_all_three exTimerRows [exTimerRow] [exTimerRow] (by decide) exTimerRow⟩

/-- C6 counterexample: the same six observations of one group, presented
in reverse arrival order (a permutation with identical row contents),
produce a different confirmed-timers output: detect_timers reports one
timer for the timestamp-ascending arrival order and none for the reversed
one, because the digit sequence is taken in input order and never sorted
by timestamp. -/
theorem arrival_order_changes_result :
    exTimerRows.reverse.Perm exTimerRows ∧
    (detect_timers exTimerRows).map (fun p => p.1.length) = some 1 ∧
    (detect_timers exTimerRows.reverse).map (fun p => p.1.length) = some 0 :=
  ⟨List.reverse_perm _, by decide, by decide⟩

/-- C6 amended: the digit sequence used for difference computation is the
group rows in original input order, with no sort by timestamp, so the
classification of a group can depend on the arrival order of its input
rows: two arrival orders of the same rows can give different outputs. -/
theorem classification_depends_on_arrival_order :
    ∃ rows₁ rows₂ : List PreprocessedObservation,
      rows₁.Perm rows₂ ∧ detect_timers rows₁ ≠ detect_timers rows₂ := by
  refine ⟨exTimerRows.reverse, exTimerRows, List.reverse_perm _, ?_⟩
  decide

/-- C9: the grouping key is exactly (visitId, top, left, innerProcessed):
two observations agree on the key precisely when they agree on those four
fields; concretely, the two observations of exTwoNodes, identical on all
four key fields but with different nodeId, form a single group whose
nodeIdCount is 2. -/
theorem grouping_key_exact :
    (∀ o₁ o₂ : PreprocessedObservation,
      groupKey o₁ = groupKey o₂ ↔
        (o₁.visitId = o₂.visitId ∧ o₁.top = o₂.top ∧ o₁.left = o₂.left ∧
          o₁.innerProcessed = o₂.innerProcessed)) ∧
    (exTwoNodes.map fun o => o.nodeId) = [7, 8] ∧
    (groupKeys exTwoNodes).length = 1 ∧
    (detect_timers exTwoNodes).map (fun p => p.2.map fun g => g.nodeIdCount)
      = some [2] := by
  refine ⟨fun o₁ o₂ => ?_, by decide, by decide, by decide⟩
  unfold groupKey
  simp [GroupKey.mk.injEq]
